import Mathlib

/-!
Verification of the pcap-analyzer HTTP/DNS traffic reconstruction tool.

The development shallowly embeds the Go sources:
* `internal/dns` (the DNS correlation cache `Cache` with `Add`, `Get`,
  `Size`, `GetWithRDNS`),
* `cmd/pcap-analyzer/main.go` (the per-flow-direction `run` loop, the
  TLS sniff, the request/response dispatch, `printHTTPRequest`'s URL
  derivation, the 1 MiB body cap, and `main`'s port filter),
together with the fragment of Go `net/http` message framing that `run`
invokes through `http.ReadRequest` / `http.ReadResponse`.

Byte streams are modelled as `List Char` (every element is a code point
below 256, standing for one byte).  Maps guarded by the cache mutex are
modelled as association lists; each mutex-protected region of the Go code
is one atomic step of the model.
-/

namespace PcapAnalyzer

/-! ## DNS correlation cache (src/unnamed/part_004, package dns) -/

/-- Association-list lookup, mirroring a Go `map[string]string` read
(`v, ok := m[k]`). -/
def mapLookup (m : List (String × String)) (k : String) : Option String :=
  match m with
  | [] => none
  | kv :: rest => if kv.1 = k then some kv.2 else mapLookup rest k

/-- Association-list insert, mirroring a Go `map[string]string` write
(`m[k] = v`): replaces the binding if the key is present, else appends. -/
def mapInsert (m : List (String × String)) (k v : String) : List (String × String) :=
  match m with
  | [] => [(k, v)]
  | kv :: rest => if kv.1 = k then (k, v) :: rest else kv :: mapInsert rest k v

/-- Whether the first list is a leading segment of the second. -/
def listStartsWith : List Char → List Char → Bool
  | [], _ => true
  | _ :: _, [] => false
  | p :: ps, c :: cs => p = c && listStartsWith ps cs

/-- Go `strings.TrimSuffix s suffix`: removes one trailing occurrence of
the suffix if present. -/
def trimSuffix (s suf : String) : String :=
  if listStartsWith suf.data.reverse s.data.reverse then
    String.mk (s.data.take (s.data.length - suf.data.length))
  else s

/-- The DNS cache state: `entries` is the forward map (IP -> FQDN from
observed DNS answers), `rdnsCache` the reverse-lookup result map
(IP -> hostname, "" recording a negative outcome). -/
structure Cache where
  entries : List (String × String)
  rdnsCache : List (String × String)
  deriving DecidableEq, Repr

/-- `dns.NewCache`: both maps empty. -/
def Cache.new : Cache := ⟨[], []⟩

/-- `dns.Cache.Add`: stores the forward entry with one trailing dot
stripped (`c.entries[ip] = strings.TrimSuffix(fqdn, ".")`). -/
def Cache.add (c : Cache) (ip fqdn : String) : Cache :=
  { c with entries := mapInsert c.entries ip (trimSuffix fqdn ".") }

/-- `dns.Cache.Get`: forward map read under the read lock. -/
def Cache.get (c : Cache) (ip : String) : Option String :=
  mapLookup c.entries ip

/-- `dns.Cache.Size`: number of forward entries. -/
def Cache.size (c : Cache) : Nat := c.entries.length

/-- Outcome of one `GetWithRDNS` call: the returned hostname, the cache
state afterwards, and whether an underlying reverse DNS lookup
(`net.DefaultResolver.LookupAddr`) was performed by this call. -/
structure RDNSResult where
  hostname : String
  cache : Cache
  lookedUp : Bool
  deriving DecidableEq, Repr

/-- `dns.Cache.GetWithRDNS`, sequential semantics.  The external resolver
is a parameter: `resolver ip = none` models `LookupAddr` failing or
returning no names, `some name` models it returning `name` first.
Checks the forward map, then the reverse cache, and only then performs
the lookup, caching even a negative outcome. -/
def Cache.getWithRDNS (resolver : String → Option String) (c : Cache) (ip : String) :
    RDNSResult :=
  match c.get ip with
  | some fqdn => ⟨fqdn, c, false⟩
  | none =>
    match mapLookup c.rdnsCache ip with
    | some hostname => ⟨hostname, c, false⟩
    | none =>
      match resolver ip with
      | none => ⟨"", { c with rdnsCache := mapInsert c.rdnsCache ip "" }, true⟩
      | some name =>
        let hostname := trimSuffix name "."
        ⟨hostname, { c with rdnsCache := mapInsert c.rdnsCache ip hostname }, true⟩

/-- Resolve a sequence of IPs through `GetWithRDNS`, threading the cache
state (the sequential composition of any number of calls). -/
def Cache.resolveSeq (resolver : String → Option String) (c : Cache) :
    List String → Cache
  | [] => c
  | ip :: rest => Cache.resolveSeq resolver (Cache.getWithRDNS resolver c ip).cache rest

/-! ### Interleaved execution of two concurrent `GetWithRDNS` callers

`GetWithRDNS` takes and releases the cache lock several times: the
forward-map read (`c.Get`) is one read-locked region, the reverse-cache
read is a second read-locked region, and the write of the lookup outcome
is a separate write-locked region; the `LookupAddr` network call itself
runs with no lock held.  Each locked region is therefore one atomic step
of this model; the lookup and its subsequent result write are merged
into one step (merging only removes interleavings, it adds none). -/

/-- Program counter of one in-flight `GetWithRDNS` call. -/
inductive RPhase
  | checkForward
  | checkReverse
  | doLookup
  | finished
  deriving DecidableEq, Repr

/-- One concurrent caller: where it is in `GetWithRDNS`, the hostname it
will return, and how many underlying reverse lookups it has performed. -/
structure ThreadSt where
  phase : RPhase
  result : String
  lookups : Nat
  deriving DecidableEq, Repr

/-- A caller that has just invoked `GetWithRDNS(ip)`. -/
def ThreadSt.start : ThreadSt := ⟨RPhase.checkForward, "", 0⟩

/-- One atomic step of one `GetWithRDNS` caller against the shared cache. -/
def threadStep (resolver : String → Option String) (ip : String)
    (c : Cache) (t : ThreadSt) : Cache × ThreadSt :=
  match t.phase with
  | RPhase.checkForward =>
    match c.get ip with
    | some fqdn => (c, { t with phase := RPhase.finished, result := fqdn })
    | none => (c, { t with phase := RPhase.checkReverse })
  | RPhase.checkReverse =>
    match mapLookup c.rdnsCache ip with
    | some hostname => (c, { t with phase := RPhase.finished, result := hostname })
    | none => (c, { t with phase := RPhase.doLookup })
  | RPhase.doLookup =>
    match resolver ip with
    | none =>
      ({ c with rdnsCache := mapInsert c.rdnsCache ip "" },
       { t with phase := RPhase.finished, result := "", lookups := t.lookups + 1 })
    | some name =>
      let hostname := trimSuffix name "."
      ({ c with rdnsCache := mapInsert c.rdnsCache ip hostname },
       { t with phase := RPhase.finished, result := hostname, lookups := t.lookups + 1 })
  | RPhase.finished => (c, t)

/-- Shared state of two concurrent callers: the cache and both threads. -/
structure SysSt where
  cache : Cache
  t1 : ThreadSt
  t2 : ThreadSt
  deriving DecidableEq, Repr

/-- Run a schedule: `false` steps thread 1, `true` steps thread 2. -/
def runSched (resolver : String → Option String) (ip : String) :
    List Bool → SysSt → SysSt
  | [], s => s
  | pick :: rest, s =>
    let s' :=
      if pick then
        let (c, t) := threadStep resolver ip s.cache s.t2
        { s with cache := c, t2 := t }
      else
        let (c, t) := threadStep resolver ip s.cache s.t1
        { s with cache := c, t1 := t }
    runSched resolver ip rest s'

/-! ## Request URL derivation (cmd/pcap-analyzer/main.go, printHTTPRequest) -/

/-- The scheme chosen by `printHTTPRequest`: `https` when the destination
port string is "443" or "8443", else `http`. -/
def deriveProtocol (dstPort : String) : String :=
  if dstPort = "443" ∨ dstPort = "8443" then "https" else "http"

/-- The authority chosen by `printHTTPRequest`: the request's Host when
non-empty, else the destination FQDN from the DNS cache when non-empty,
else the raw destination IP. -/
def deriveHostname (reqHost dstFQDN dstIP : String) : String :=
  if reqHost = "" then (if dstFQDN ≠ "" then dstFQDN else dstIP) else reqHost

/-- `printHTTPRequest`'s port suffixing: when the scheme/port pair is not
http/80 or https/443 and the hostname carries no ":" yet, append
":dstPort". -/
def addNonDefaultPort (protocol hostname dstPort : String) : String :=
  if (protocol = "http" ∧ dstPort ≠ "80") ∨ (protocol = "https" ∧ dstPort ≠ "443") then
    if hostname.data.contains ':' then hostname else hostname ++ ":" ++ dstPort
  else hostname

/-- The fully-qualified URL printed for a request:
`protocol://hostname⟨:port⟩path⟨?query⟩`. -/
def fullURL (reqHost dstFQDN dstIP dstPort urlPath rawQuery : String) : String :=
  let protocol := deriveProtocol dstPort
  let hostname := addNonDefaultPort protocol (deriveHostname reqHost dstFQDN dstIP) dstPort
  protocol ++ "://" ++ hostname ++ urlPath ++
    (if rawQuery ≠ "" then "?" ++ rawQuery else "")

/-! ## HTTP message framing (the Go net/http fragment invoked by run)

`run` parses messages through `http.ReadRequest` / `http.ReadResponse`;
those library calls are embedded here at the granularity the pipeline
observes: start line, header block, and body framing by Content-Length,
chunked transfer coding, or read-to-end-of-stream.  Percent-unescaping of
the request path, obsolete header line folding and the gzip display
transform are left as the identity; a malformed chunked body is modelled
as a framing failure of the message that carries it. -/

/-- Split a stream at its first LF: the bytes before it and the bytes
after; `none` when the stream ends with no LF (an unterminated line). -/
def splitAtLF : List Char → Option (List Char × List Char)
  | [] => none
  | c :: cs =>
    if c = '\n' then some ([], cs)
    else
      match splitAtLF cs with
      | none => none
      | some (l, r) => some (c :: l, r)

/-- Remove one trailing CR, as the textproto line reader does after
splitting at LF. -/
def dropTrailingCR (l : List Char) : List Char :=
  match l.reverse with
  | '\r' :: rest => rest.reverse
  | _ => l

/-- The textproto line reader: one line (CR/LF trimmed) and the rest of
the stream. -/
def readLine (s : List Char) : Option (List Char × List Char) :=
  (splitAtLF s).map fun p => (dropTrailingCR p.1, p.2)

/-- Go `strings.Cut(l, sep)` for a one-character separator: the parts
before and after the first occurrence, or `none` when absent. -/
def cutAtChar (sep : Char) : List Char → Option (List Char × List Char)
  | [] => none
  | c :: cs =>
    if c = sep then some ([], cs)
    else
      match cutAtChar sep cs with
      | none => none
      | some (l, r) => some (c :: l, r)

/-- RFC 7230 token characters, as Go's `isTokenTable` (letters, digits
and the fifteen listed punctuation bytes). -/
def isTokenChar (c : Char) : Bool :=
  let n := c.toNat
  (65 ≤ n && n ≤ 90) || (97 ≤ n && n ≤ 122) || (48 ≤ n && n ≤ 57) ||
    [33, 35, 36, 37, 38, 39, 42, 43, 45, 46, 94, 95, 96, 124, 126].contains n

/-- Go `validMethod`: a non-empty run of token characters. -/
def validMethod (m : List Char) : Bool := !m.isEmpty && m.all isTokenChar

/-- Go `http.ParseHTTPVersion` as a validity test: "HTTP/1.1", "HTTP/1.0",
or the single-digit "HTTP/X.Y" form. -/
def parseHTTPVersion (v : List Char) : Bool :=
  v = "HTTP/1.1".data || v = "HTTP/1.0".data ||
    (listStartsWith "HTTP/".data v &&
      match v.drop 5 with
      | [maj, dot, mnr] => maj.isDigit && dot = '.' && mnr.isDigit
      | _ => false)

/-- `url.ParseRequestURI` on an origin-form target: requires a leading
"/", and splits path from raw query at the first "?". -/
def parseTarget : List Char → Option (List Char × List Char)
  | [] => none
  | c :: cs =>
    if c = '/' then
      match cutAtChar '?' (c :: cs) with
      | none => some (c :: cs, [])
      | some (p, q) => some (p, q)
    else none

/-- ASCII lower-casing of one character (header names are compared
case-insensitively per HTTP semantics). -/
def asciiLower (c : Char) : Char :=
  if 65 ≤ c.toNat && c.toNat ≤ 90 then Char.ofNat (c.toNat + 32) else c

/-- Drop leading spaces and tabs (textproto's treatment of a header
value). -/
def trimLeftWS : List Char → List Char
  | [] => []
  | c :: cs => if c = ' ' || c = '\t' then trimLeftWS cs else c :: cs

/-- Drop trailing spaces and tabs. -/
def trimRightWS (l : List Char) : List Char := (trimLeftWS l.reverse).reverse

/-- `textproto.TrimString`: drop spaces and tabs on both ends. -/
def trimWS (l : List Char) : List Char := trimRightWS (trimLeftWS l)

/-- Drop leading spaces only (Go `strings.TrimLeft(s, " ")`). -/
def trimLeftSpaceOnly : List Char → List Char
  | [] => []
  | c :: cs => if c = ' ' then trimLeftSpaceOnly cs else c :: cs

/-- `textproto.ReadMIMEHeader` as invoked by ReadRequest/ReadResponse:
header lines until the empty line; each line must split at ":" with a
non-empty, whitespace-free name; values lose their leading whitespace.
On failure the error carries the stream position after the consumed
bytes (the offending line included). -/
def readHeaderLines (fuel : Nat) (s : List Char) :
    Except (List Char) (List (List Char × List Char) × List Char) :=
  match fuel with
  | 0 => .error s
  | fuel + 1 =>
    match readLine s with
    | none => .error []
    | some (line, rest) =>
      if line.isEmpty then .ok ([], rest)
      else
        match cutAtChar ':' line with
        | none => .error rest
        | some (key, rawVal) =>
          if key.isEmpty || key.any (fun c => c = ' ' || c = '\t') then .error rest
          else
            match readHeaderLines fuel rest with
            | .error r => .error r
            | .ok (hs, r) => .ok ((key, trimLeftWS rawVal) :: hs, r)

/-- `Header.Get`: first value stored under the (case-insensitive) name,
"" when absent. -/
def headerGet (hs : List (List Char × List Char)) (name : List Char) : List Char :=
  match hs.find? (fun kv => kv.1.map asciiLower == name.map asciiLower) with
  | some kv => kv.2
  | none => []

/-- Numeric value of a decimal digit character. -/
def digitVal (c : Char) : Nat := c.toNat - 48

/-- Decimal value of a digit run. -/
def natOfDigits (l : List Char) : Nat := l.foldl (fun acc c => acc * 10 + digitVal c) 0

/-- Go's Content-Length parse: a non-empty all-digit run, else failure. -/
def parseDigits (l : List Char) : Option Nat :=
  if !l.isEmpty && l.all Char.isDigit then some (natOfDigits l) else none

/-- Hexadecimal digit test. -/
def isHexDigit (c : Char) : Bool :=
  c.isDigit || (97 ≤ c.toNat && c.toNat ≤ 102) || (65 ≤ c.toNat && c.toNat ≤ 70)

/-- Numeric value of a hexadecimal digit character. -/
def hexVal (c : Char) : Nat :=
  if c.isDigit then c.toNat - 48
  else if 97 ≤ c.toNat then c.toNat - 87
  else c.toNat - 55

/-- Hexadecimal value of a non-empty hex-digit run, else failure. -/
def parseHex (l : List Char) : Option Nat :=
  if !l.isEmpty && l.all isHexDigit then
    some (l.foldl (fun acc c => acc * 16 + hexVal c) 0)
  else none

/-- The chunk-size line of the chunked coding: trailing whitespace
trimmed, any chunk extension after ";" discarded, the remainder read as
hex. -/
def chunkSizeOf (line : List Char) : Option Nat :=
  let t := trimRightWS line
  match cutAtChar ';' t with
  | some (sz, _) => parseHex sz
  | none => parseHex t

/-- Skip trailer lines after the final 0-size chunk, up to and including
the blank line. -/
def skipTrailer (fuel : Nat) (s : List Char) : Option (List Char) :=
  match fuel with
  | 0 => none
  | fuel + 1 =>
    match readLine s with
    | none => none
    | some (line, rest) =>
      if line.isEmpty then some rest else skipTrailer fuel rest

/-- Decode a chunked body: size line, that many bytes, a CRLF, repeated
until the 0-size chunk and its trailer. -/
def readChunks (fuel : Nat) (s : List Char) (acc : List Char) :
    Option (List Char × List Char) :=
  match fuel with
  | 0 => none
  | fuel + 1 =>
    match readLine s with
    | none => none
    | some (line, rest) =>
      match chunkSizeOf line with
      | none => none
      | some 0 => (skipTrailer fuel rest).map fun r => (acc, r)
      | some (n + 1) =>
        if rest.length < n + 1 then none
        else
          match rest.drop (n + 1) with
          | '\r' :: '\n' :: r2 => readChunks fuel r2 (acc ++ rest.take (n + 1))
          | _ => none

/-- Request body framing (Go `fixLength`, `isResponse = false`): a
chunked transfer coding wins; else an explicit Content-Length is read
exactly; else the body is absent.  An unsupported transfer coding or an
unparsable Content-Length fails the message. -/
def requestBody (headers : List (List Char × List Char)) (s : List Char) :
    Option (List Char × List Char) :=
  let te := trimWS (headerGet headers "Transfer-Encoding".data)
  if !te.isEmpty then
    if te.map asciiLower = "chunked".data then readChunks (s.length + 1) s []
    else none
  else
    let cl := trimWS (headerGet headers "Content-Length".data)
    if cl.isEmpty then some ([], s)
    else
      match parseDigits cl with
      | none => none
      | some n => some (s.take n, s.drop n)

/-- Go `bodyAllowedForStatus`: 1xx, 204 and 304 responses carry no
body. -/
def bodyAllowed (code : Nat) : Bool :=
  if 100 ≤ code ∧ code ≤ 199 then false
  else if code = 204 then false
  else if code = 304 then false
  else true

/-- Response body framing (Go `fixLength`, `isResponse = true`, request
method GET): bodiless statuses first, then chunked, then Content-Length,
and otherwise the body runs to the end of the stream. -/
def responseBody (code : Nat) (headers : List (List Char × List Char))
    (s : List Char) : Option (List Char × List Char) :=
  if !bodyAllowed code then some ([], s)
  else
    let te := trimWS (headerGet headers "Transfer-Encoding".data)
    if !te.isEmpty then
      if te.map asciiLower = "chunked".data then readChunks (s.length + 1) s []
      else none
    else
      let cl := trimWS (headerGet headers "Content-Length".data)
      if cl.isEmpty then some (s, [])
      else
        match parseDigits cl with
        | none => none
        | some n => some (s.take n, s.drop n)

/-- Result of `http.ReadRequest`: the parsed start line and URL parts,
the Host header, the header list and the framed (untruncated) body. -/
structure ParsedReq where
  method : List Char
  urlPath : List Char
  rawQuery : List Char
  proto : List Char
  host : List Char
  headers : List (List Char × List Char)
  body : List Char
  deriving DecidableEq, Repr

/-- Result of `http.ReadResponse`: status text (`resp.Status`), protocol,
numeric status code, headers and the framed body. -/
structure ParsedResp where
  status : List Char
  proto : List Char
  statusCode : Nat
  headers : List (List Char × List Char)
  body : List Char
  deriving DecidableEq, Repr

/-- `http.ReadRequest`: request line (`METHOD target PROTO`, method a
token run, target origin-form, version valid), header block, framed
body.  Any failure drops the message; the error carries the stream
position after the bytes the reader consumed — the run loop's retry
test decides whether parsing resumes there. -/
def readRequest (s : List Char) : Except (List Char) (ParsedReq × List Char) :=
  match readLine s with
  | none => .error []
  | some (line, rest) =>
    match cutAtChar ' ' line with
    | none => .error rest
    | some (method, rest2) =>
      match cutAtChar ' ' rest2 with
      | none => .error rest
      | some (target, proto) =>
        if !validMethod method then .error rest
        else if !parseHTTPVersion proto then .error rest
        else
          match parseTarget target with
          | none => .error rest
          | some (p, q) =>
            match readHeaderLines (rest.length + 1) rest with
            | .error r => .error r
            | .ok (headers, rest3) =>
              match requestBody headers rest3 with
              | none => .error rest3
              | some (body, rest4) =>
                .ok (⟨method, p, q, proto, headerGet headers "Host".data,
                      headers, body⟩, rest4)

/-- `http.ReadResponse` (with the dummy GET request `run` passes): status
line `PROTO status`, three-digit status code, valid version, header
block, framed body.  On failure the error carries the position after the
bytes the reader consumed — the `run` loop retries from there. -/
def readResponseMsg (s : List Char) : Except (List Char) (ParsedResp × List Char) :=
  match readLine s with
  | none => .error []
  | some (line, rest) =>
    match cutAtChar ' ' line with
    | none => .error rest
    | some (proto, statusText) =>
      let status := trimLeftSpaceOnly statusText
      let statusCode :=
        match cutAtChar ' ' status with
        | some (code, _) => code
        | none => status
      if statusCode.length ≠ 3 || !statusCode.all Char.isDigit then .error rest
      else if !parseHTTPVersion proto then .error rest
      else
        match readHeaderLines (rest.length + 1) rest with
        | .error r => .error r
        | .ok (headers, rest2) =>
          match responseBody (natOfDigits statusCode) headers rest2 with
          | none => .error rest2
          | some (body, rest3) =>
            .ok (⟨status, proto, natOfDigits statusCode, headers, body⟩, rest3)

/-! ## The per-flow-direction run loop (cmd/pcap-analyzer/main.go, run)

The model gives `run` the direction's complete reassembled byte stream:
the end-of-capture state, after the final flush, when no further data
will arrive.  On a failed response read the loop unconditionally
retries from wherever the failed read stopped.  On a failed request
read it consults the test `h.r.Buffer.Len() > buf.Buffered()` — the
bytes still unread in the underlying buffer against the bytes held by
the 4096-byte bufio layer.  That test's outcome depends on bufio
occupancy, which the stream position alone does not determine (with no
new data it is still true whenever enough of the remainder sits below
the bufio layer, e.g. streams well beyond 8 KB; false when the whole
remainder is already buffered), so it enters the model as an oracle
consulted at each request-parse failure. -/

/-- The per-direction context `run` reads from the flow and the DNS
cache: the transport port endpoint strings and the destination IP and
cache-resolved FQDN ("" when the cache has no entry). -/
structure FlowCtx where
  srcPort : String
  dstPort : String
  dstIP : String
  dstFQDN : String
  deriving DecidableEq, Repr

/-- A request as printed by `printHTTPRequest`: the derived full URL and
the body truncated to the 1 MiB read buffer (raw captured bytes; the
gzip display transform is outside the model). -/
structure ReqMsg where
  method : List Char
  url : String
  proto : List Char
  host : List Char
  headers : List (List Char × List Char)
  body : List Char
  deriving DecidableEq, Repr

/-- A response as printed by `printHTTPResponse`. -/
structure RespMsg where
  status : List Char
  proto : List Char
  statusCode : Nat
  headers : List (List Char × List Char)
  body : List Char
  deriving DecidableEq, Repr

/-- One emitted HTTP message of a flow direction. -/
inductive HTTPMsg
  | request : ReqMsg → HTTPMsg
  | response : RespMsg → HTTPMsg
  deriving DecidableEq, Repr

/-- The body bytes an emitted message exposes. -/
def HTTPMsg.body : HTTPMsg → List Char
  | request r => r.body
  | response r => r.body

/-- Whether an emitted message was parsed under the request role. -/
def HTTPMsg.isReq : HTTPMsg → Bool
  | request _ => true
  | response _ => false

/-- The 1 MiB body read buffer of printHTTPRequest/printHTTPResponse. -/
def bodyCap : Nat := 1024 * 1024

/-- The body bytes a single `Read` into the 1 MiB buffer exposes. -/
def emitBody (b : List Char) : List Char := b.take bodyCap

/-- Assemble the printed request message (URL derivation included). -/
def mkReqMsg (ctx : FlowCtx) (r : ParsedReq) : ReqMsg :=
  ⟨r.method,
   fullURL (String.mk r.host) ctx.dstFQDN ctx.dstIP ctx.dstPort
     (String.mk r.urlPath) (String.mk r.rawQuery),
   r.proto, r.host, r.headers, emitBody r.body⟩

/-- Assemble the printed response message. -/
def mkRespMsg (r : ParsedResp) : RespMsg :=
  ⟨r.status, r.proto, r.statusCode, r.headers, emitBody r.body⟩

/-- The TLS record-header sniff: first two bytes 0x16 0x03. -/
def tlsRecordStart : List Char → Bool
  | a :: b :: _ => a.toNat == 0x16 && b.toNat == 0x03
  | _ => false

/-- The message loop of `run`: peek 8 bytes (ending the direction when
fewer remain), end on a TLS-looking prefix, then dispatch on the "HTTP/"
prefix to the response or request parser.  A failed response read
retries from the bytes the reader consumed past (ending the direction if
it consumed nothing, as the real loop then spins without emitting).  A
failed request read consults the buffer-occupancy retry test, modelled
by the oracle `retryReq`: `true` retries from the consumed position —
and can resynchronize — while `false` abandons the direction. -/
def runLoop (ctx : FlowCtx) (retryReq : Nat → Bool) : Nat → List Char → List HTTPMsg
  | 0, _ => []
  | fuel + 1, s =>
    if s.length < 8 then []
    else if tlsRecordStart s then []
    else if listStartsWith "HTTP/".data s then
      match readResponseMsg s with
      | .error r => if r.length < s.length then runLoop ctx retryReq fuel r else []
      | .ok (resp, r) =>
        HTTPMsg.response (mkRespMsg resp) :: runLoop ctx retryReq fuel r
    else
      match readRequest s with
      | .error r =>
        if retryReq fuel then
          if r.length < s.length then runLoop ctx retryReq fuel r else []
        else []
      | .ok (req, r) =>
        HTTPMsg.request (mkReqMsg ctx req) :: runLoop ctx retryReq fuel r

/-- `run` on a flow direction's complete byte stream: the port-gated TLS
pre-check (TLS ports, at least 3 buffered bytes, 0x16 0x03 prefix stop
the direction before any parsing), then the message loop with the given
request-retry oracle. -/
def run (ctx : FlowCtx) (retryReq : Nat → Bool) (s : List Char) : List HTTPMsg :=
  if (ctx.dstPort = "443" ∨ ctx.dstPort = "8443" ∨
      ctx.srcPort = "443" ∨ ctx.srcPort = "8443")
      ∧ 3 ≤ s.length ∧ tlsRecordStart s = true then []
  else runLoop ctx retryReq (s.length + 1) s

/-! ## The TCP port filter (cmd/pcap-analyzer/main.go, main) -/

/-- Modelled from the gopacket collaborator (not part of this repository):
`layers.TCPPort.String()` renders a well-known port as "number(name)"
using the generated IANA service-name table, and as the bare decimal
number otherwise.  Only the ports the filter in `main` names are listed
here; all of them carry IANA names. -/
def tcpPortNames : List (Nat × String) :=
  [(22, "ssh"), (23, "telnet"), (25, "smtp"), (53, "domain"), (80, "http"),
   (110, "pop3"), (143, "imap"), (443, "https"), (993, "imaps"), (995, "pop3s")]

/-- Modelled from the gopacket collaborator: the string `main` passes to
its port filter for a TCP port (`tcpLayer.SrcPort.String()`). -/
def tcpPortString (p : Nat) : String :=
  match tcpPortNames.find? (fun kv => kv.1 = p) with
  | some kv => toString p ++ "(" ++ kv.2 ++ ")"
  | none => toString p

/-- `main`'s `isHTTPPort` switch over the port string: common HTTP ports
and TLS ports pass, the eight "definitely not HTTP" strings are rejected,
anything else passes for content detection. -/
def isHTTPPort (port : String) : Bool :=
  if port = "80" ∨ port = "8080" ∨ port = "8000" ∨ port = "8888" ∨
      port = "3000" ∨ port = "5000" ∨ port = "9000" then true
  else if port = "443" ∨ port = "8443" then true
  else if port = "22" ∨ port = "23" ∨ port = "25" ∨ port = "53" ∨
      port = "110" ∨ port = "143" ∨ port = "993" ∨ port = "995" then false
  else true

/-- `main`'s decision to hand a TCP segment to the reassembler:
`isHTTPPort(srcPort) || isHTTPPort(dstPort)` over the rendered port
strings. -/
def segmentSubmitted (srcPort dstPort : Nat) : Bool :=
  isHTTPPort (tcpPortString srcPort) || isHTTPPort (tcpPortString dstPort)

/-! ## Theorems -/

theorem mapLookup_mapInsert_self (m : List (String × String)) (k v : String) :
    mapLookup (mapInsert m k v) k = some v := by
  induction m with
  | nil => simp [mapInsert, mapLookup]
  | cons kv rest ih =>
    by_cases h : kv.1 = k
    · simp [mapInsert, mapLookup, h]
    · simp [mapInsert, mapLookup, h, ih]

theorem mapLookup_mapInsert_ne (m : List (String × String)) (k v k' : String)
    (h : k ≠ k') : mapLookup (mapInsert m k v) k' = mapLookup m k' := by
  induction m with
  | nil => simp [mapInsert, mapLookup, h]
  | cons kv rest ih =>
    by_cases hk : kv.1 = k
    · simp [mapInsert, mapLookup, hk, h]
    · simp only [mapInsert, hk, if_false, mapLookup]
      by_cases hk' : kv.1 = k' <;> simp [hk', ih]

/-- `GetWithRDNS` leaves the forward-entry map untouched, whatever branch
it takes. -/
theorem getWithRDNS_entries (resolver : String → Option String) (c : Cache)
    (ip : String) : (Cache.getWithRDNS resolver c ip).cache.entries = c.entries := by
  unfold Cache.getWithRDNS
  cases c.get ip with
  | some fqdn => rfl
  | none =>
    cases mapLookup c.rdnsCache ip with
    | some hostname => rfl
    | none => cases resolver ip <;> rfl

/-- Stripping a single trailing dot: `TrimSuffix (h ++ ".") "." = h`. -/
theorem trimSuffix_push_dot (h : String) : trimSuffix (h.push '.') "." = h := by
  have hdata : (h.push '.').data = h.data ++ ['.'] := rfl
  have hrev : (h.push '.').data.reverse = '.' :: h.data.reverse := by
    rw [hdata, List.reverse_append]
    rfl
  unfold trimSuffix
  rw [show ("." : String).data = ['.'] from rfl, hrev, hdata]
  simp [listStartsWith, Nat.add_sub_cancel, List.take_left]

/-- Claim C6: after `recordAnswer(ip, h ++ ".")` (a hostname with a
trailing dot), `resolve(ip)` returns `h` — the trailing dot was stripped
by `Add` — performing no reverse DNS lookup and leaving the cache
unchanged: the forward entry is found first. -/
theorem claim_C6_record_then_resolve (resolver : String → Option String)
    (c : Cache) (ip h : String) :
    Cache.getWithRDNS resolver (c.add ip (h.push '.')) ip =
      ⟨h, c.add ip (h.push '.'), false⟩ := by
  have hget : (c.add ip (h.push '.')).get ip = some h := by
    unfold Cache.add Cache.get
    rw [mapLookup_mapInsert_self, trimSuffix_push_dot]
  unfold Cache.getWithRDNS
  rw [hget]

/-- C6 at the spec's concrete input: recording `www.example.com.` and
resolving returns `www.example.com`. -/
theorem claim_C6_concrete :
    (Cache.getWithRDNS (fun _ => none)
        (Cache.new.add "93.184.216.34" "www.example.com.") "93.184.216.34").hostname =
      "www.example.com" := by
  have := claim_C6_record_then_resolve (fun _ => none) Cache.new "93.184.216.34"
    "www.example.com"
  rw [show ("www.example.com" : String).push '.' = "www.example.com." from rfl] at this
  rw [this]

/-- No call in a sequence of `GetWithRDNS` resolutions touches the
forward-entry map. -/
theorem resolveSeq_entries (resolver : String → Option String) (ips : List String) :
    ∀ c : Cache, (Cache.resolveSeq resolver c ips).entries = c.entries := by
  induction ips with
  | nil => intro c; rfl
  | cons ip rest ih =>
    intro c
    unfold Cache.resolveSeq
    rw [ih, getWithRDNS_entries]

/-- Claim C10: `GetWithRDNS` never modifies the forward-entry map — after
any sequence of resolutions `Size()` is unchanged, every forward lookup
returns what it returned before, and an entry stored by `Add` is still
returned afterwards. -/
theorem claim_C10_rdns_preserves_forward (resolver : String → Option String)
    (c : Cache) (ips : List String) :
    (Cache.resolveSeq resolver c ips).size = c.size ∧
    (∀ ip, (Cache.resolveSeq resolver c ips).get ip = c.get ip) ∧
    (∀ ip h, (Cache.resolveSeq resolver (c.add ip h) ips).get ip =
      some (trimSuffix h ".")) := by
  refine ⟨?_, ?_, ?_⟩
  · unfold Cache.size
    rw [resolveSeq_entries]
  · intro ip
    unfold Cache.get
    rw [resolveSeq_entries]
  · intro ip h
    show mapLookup (Cache.resolveSeq resolver (c.add ip h) ips).entries ip = _
    rw [resolveSeq_entries]
    exact mapLookup_mapInsert_self _ _ _

/-- Counterexample to claim C7: two concurrent callers that both pass the
(read-locked) forward and reverse cache checks before either performs its
lookup each trigger an underlying reverse DNS lookup — two lookups in
total for one IP, not at most one.  The schedule alternates the threads
through `GetWithRDNS`'s three lock regions. -/
theorem claim_C7_counterexample :
    ((runSched (fun _ => some "host.example.com.") "203.0.113.7"
        [false, true, false, true, false, true]
        ⟨Cache.new, ThreadSt.start, ThreadSt.start⟩).t1.lookups,
     (runSched (fun _ => some "host.example.com.") "203.0.113.7"
        [false, true, false, true, false, true]
        ⟨Cache.new, ThreadSt.start, ThreadSt.start⟩).t2.lookups) = (1, 1) := by
  decide

/-- Claim C7 (amended): two sequential resolutions of the same IP with no
intervening `recordAnswer` return the same hostname (including the
negative "" result) and the second call never performs a reverse lookup;
but concurrent callers give no such guarantee — there is no per-key
in-flight guard, so racing first resolutions can each trigger a lookup. -/
theorem claim_C7_sequential_idempotent (resolver : String → Option String)
    (c : Cache) (ip : String) :
    (Cache.getWithRDNS resolver (Cache.getWithRDNS resolver c ip).cache ip).hostname
      = (Cache.getWithRDNS resolver c ip).hostname ∧
    (Cache.getWithRDNS resolver (Cache.getWithRDNS resolver c ip).cache ip).lookedUp
      = false := by
  cases hf : c.get ip with
  | some fqdn =>
    have h1 : Cache.getWithRDNS resolver c ip = ⟨fqdn, c, false⟩ := by
      unfold Cache.getWithRDNS; rw [hf]
    simp [h1]
  | none =>
    cases hr : mapLookup c.rdnsCache ip with
    | some hostname =>
      have h1 : Cache.getWithRDNS resolver c ip = ⟨hostname, c, false⟩ := by
        unfold Cache.getWithRDNS; rw [hf, hr]
      simp [h1]
    | none =>
      cases hres : resolver ip with
      | none =>
        have h1 : Cache.getWithRDNS resolver c ip =
            ⟨"", { c with rdnsCache := mapInsert c.rdnsCache ip "" }, true⟩ := by
          unfold Cache.getWithRDNS; rw [hf, hr, hres]
        rw [h1]
        have h2 : Cache.getWithRDNS resolver
            { c with rdnsCache := mapInsert c.rdnsCache ip "" } ip =
            ⟨"", { c with rdnsCache := mapInsert c.rdnsCache ip "" }, false⟩ := by
          unfold Cache.getWithRDNS
          rw [show ({ c with rdnsCache := mapInsert c.rdnsCache ip "" } : Cache).get ip
              = none from hf, mapLookup_mapInsert_self]
        simp [h1, h2]
      | some name =>
        have h1 : Cache.getWithRDNS resolver c ip =
            ⟨trimSuffix name ".",
             { c with rdnsCache := mapInsert c.rdnsCache ip (trimSuffix name ".") },
             true⟩ := by
          unfold Cache.getWithRDNS; rw [hf, hr, hres]
        rw [h1]
        have h2 : Cache.getWithRDNS resolver
            { c with rdnsCache := mapInsert c.rdnsCache ip (trimSuffix name ".") } ip =
            ⟨trimSuffix name ".",
             { c with rdnsCache := mapInsert c.rdnsCache ip (trimSuffix name ".") },
             false⟩ := by
          unfold Cache.getWithRDNS
          rw [show ({ c with rdnsCache := mapInsert c.rdnsCache ip (trimSuffix name ".") }
              : Cache).get ip = none from hf, mapLookup_mapInsert_self]
        simp [h1, h2]

/-- One unfolding step of the message loop at positive fuel. -/
theorem runLoop_succ (ctx : FlowCtx) (retryReq : Nat → Bool) (fuel : Nat) (s : List Char) :
    runLoop ctx retryReq (fuel + 1) s =
      if s.length < 8 then []
      else if tlsRecordStart s then []
      else if listStartsWith "HTTP/".data s then
        match readResponseMsg s with
        | .error r => if r.length < s.length then runLoop ctx retryReq fuel r else []
        | .ok (resp, r) =>
          HTTPMsg.response (mkRespMsg resp) :: runLoop ctx retryReq fuel r
      else
        match readRequest s with
        | .error r =>
          if retryReq fuel then
            if r.length < s.length then runLoop ctx retryReq fuel r else []
          else []
        | .ok (req, r) =>
          HTTPMsg.request (mkReqMsg ctx req) :: runLoop ctx retryReq fuel r := by
  rfl

/-- Any direction whose first bytes look like a TLS record emits no
messages: whether or not the port-gated pre-check fires, the loop's own
sniff stops the direction before any parse. -/
theorem run_tls_empty (ctx : FlowCtx) (retryReq : Nat → Bool) (s : List Char)
    (h : tlsRecordStart s = true) : run ctx retryReq s = [] := by
  unfold run
  split
  · rfl
  · show runLoop ctx retryReq (s.length + 1) s = []
    rw [runLoop_succ]
    by_cases hl : s.length < 8
    · simp [hl]
    · simp [hl, h]

/-- Claim C3: a flow direction whose first delivered bytes are
0x16 0x03 yields zero HTTP messages, whatever the ports — the content
sniff inside the loop fires even when the port-gated pre-check does
not. -/
theorem claim_C3_tls_is_opaque (ctx : FlowCtx) (retryReq : Nat → Bool)
    (s : List Char) (h : tlsRecordStart s = true) : run ctx retryReq s = [] :=
  run_tls_empty ctx retryReq s h

/-- Witness for C3: the 3-byte stream 0x16 0x03 0x01 on destination port
443 yields zero messages. -/
theorem claim_C3_tls_is_opaque_witness :
    run ⟨"51216", "443", "93.184.216.34", ""⟩ (fun _ => false)
      [Char.ofNat 0x16, Char.ofNat 0x03, Char.ofNat 0x01] = [] :=
  claim_C3_tls_is_opaque ⟨"51216", "443", "93.184.216.34", ""⟩ (fun _ => false)
    [Char.ofNat 0x16, Char.ofNat 0x03, Char.ofNat 0x01] (by decide)

/-- A truncated body never exceeds the 1 MiB read buffer. -/
theorem emitBody_le (b : List Char) : (emitBody b).length ≤ bodyCap :=
  List.length_take_le _ _

/-- Every message the loop emits carries a body of at most `bodyCap`
bytes. -/
theorem runLoop_body_le (ctx : FlowCtx) (retryReq : Nat → Bool) :
    ∀ fuel s m, m ∈ runLoop ctx retryReq fuel s → m.body.length ≤ bodyCap := by
  intro fuel
  induction fuel with
  | zero => intro s m h; simp [runLoop] at h
  | succ n ih =>
    intro s m h
    rw [runLoop_succ] at h
    split at h
    · simp at h
    · split at h
      · simp at h
      · split at h
        · split at h
          · split at h
            · exact ih _ _ h
            · simp at h
          · rcases List.mem_cons.mp h with rfl | h2
            · exact emitBody_le _
            · exact ih _ _ h2
        · split at h
          · split at h
            · split at h
              · exact ih _ _ h
              · simp at h
            · simp at h
          · rcases List.mem_cons.mp h with rfl | h2
            · exact emitBody_le _
            · exact ih _ _ h2

/-- Claim C2: (1) every emitted message's body is at most 1 MiB long,
whatever Content-Length announced; (2) a request announcing
Content-Length 2000000 frames exactly those bytes and its emitted body
is truncated to exactly 1 MiB when the stream carries them. -/
theorem claim_C2_body_cap :
    (∀ (ctx : FlowCtx) (retryReq : Nat → Bool) (s : List Char) (m : HTTPMsg),
        m ∈ run ctx retryReq s → m.body.length ≤ bodyCap) ∧
    (∀ (headers : List (List Char × List Char)) (s : List Char),
        trimWS (headerGet headers "Content-Length".data) = "2000000".data →
        trimWS (headerGet headers "Transfer-Encoding".data) = [] →
        requestBody headers s = some (s.take 2000000, s.drop 2000000) ∧
          (2000000 ≤ s.length → (emitBody (s.take 2000000)).length = bodyCap)) := by
  constructor
  · intro ctx retryReq s m h
    unfold run at h
    split at h
    · simp at h
    · exact runLoop_body_le ctx retryReq _ s m h
  · intro headers s hcl hte
    constructor
    · simp only [requestBody]
      rw [hte, hcl]
      rfl
    · intro hlen
      simp [emitBody, bodyCap, List.length_take]
      omega

/-- Witness for C2 at a concrete 2000000-byte announced body. -/
theorem claim_C2_body_cap_witness :
    (requestBody [("Content-Length".data, "2000000".data)]
        (List.replicate 2000000 'a') =
      some ((List.replicate 2000000 'a').take 2000000,
            (List.replicate 2000000 'a').drop 2000000)) ∧
    (emitBody ((List.replicate 2000000 'a').take 2000000)).length = bodyCap := by
  have h := claim_C2_body_cap.2 [("Content-Length".data, "2000000".data)]
    (List.replicate 2000000 'a') (by rfl) (by rfl)
  exact ⟨h.1, h.2 (by rw [List.length_replicate])⟩

/-- Claim C1: the derived request URL.  The scheme is https exactly for
destination ports 443/8443 (http otherwise); the authority falls back
from Host to the cached FQDN to the raw IP; the port is appended exactly
when the scheme/port pair is not canonical (http/80, https/443) and the
authority carries no ":" yet; and the spec's concrete request on port 80
derives `http://example.com/a?x=1`. -/
theorem claim_C1_url_derivation :
    (∀ p : String, (deriveProtocol p = "https" ↔ (p = "443" ∨ p = "8443")) ∧
      (¬(p = "443" ∨ p = "8443") → deriveProtocol p = "http")) ∧
    (∀ reqHost dstFQDN dstIP : String,
      (reqHost ≠ "" → deriveHostname reqHost dstFQDN dstIP = reqHost) ∧
      (reqHost = "" → dstFQDN ≠ "" → deriveHostname reqHost dstFQDN dstIP = dstFQDN) ∧
      (reqHost = "" → dstFQDN = "" → deriveHostname reqHost dstFQDN dstIP = dstIP)) ∧
    (∀ (hostname p : String),
      addNonDefaultPort (deriveProtocol p) hostname p =
        if ¬((deriveProtocol p = "http" ∧ p = "80") ∨
             (deriveProtocol p = "https" ∧ p = "443")) ∧
           ¬(hostname.data.contains ':' = true)
        then hostname ++ ":" ++ p else hostname) ∧
    (∀ retryReq : Nat → Bool,
      run ⟨"51217", "80", "93.184.216.34", ""⟩ retryReq
          "GET /a?x=1 HTTP/1.1\r\nHost: example.com\r\n\r\n".data =
        [HTTPMsg.request
          ⟨"GET".data, "http://example.com/a?x=1", "HTTP/1.1".data,
           "example.com".data, [("Host".data, "example.com".data)], []⟩]) := by
  refine ⟨?_, ?_, ?_, fun retryReq => rfl⟩
  · intro p
    constructor
    · unfold deriveProtocol
      split
      · next hp => simp [hp]
      · next hp =>
        constructor
        · intro hcontra; exact absurd hcontra (by decide)
        · intro hp2; exact absurd hp2 hp
    · intro hp
      unfold deriveProtocol
      rw [if_neg hp]
  · intro reqHost dstFQDN dstIP
    refine ⟨?_, ?_, ?_⟩
    · intro hh; unfold deriveHostname; rw [if_neg hh]
    · intro hh hf; unfold deriveHostname; rw [if_pos hh, if_pos hf]
    · intro hh hf; unfold deriveHostname
      rw [if_pos hh, if_neg (by simp [hf])]
  · intro hostname p
    unfold addNonDefaultPort deriveProtocol
    by_cases hp : p = "443" ∨ p = "8443"
    · rw [if_pos hp]
      have hne : ¬(("https" : String) = "http") := by decide
      by_cases h443 : p = "443"
      · simp [h443, hne]
      · by_cases hc : hostname.data.contains ':' = true
        · simp [h443, hc, hne]
        · simp [h443, hc, hne]
    · rw [if_neg hp]
      have hne : ¬(("http" : String) = "https") := by decide
      have h80 : ¬(p = "80") ∨ p = "80" := Or.symm (em _)
      by_cases h80 : p = "80"
      · simp [h80, hne]
      · by_cases hc : hostname.data.contains ':' = true
        · simp [h80, hc, hne]
        · simp [h80, hc, hne]

/-- Witness for C1 at concrete ports and hostnames. -/
theorem claim_C1_url_derivation_witness :
    deriveProtocol "8443" = "https" ∧
    deriveHostname "" "example.com" "93.184.216.34" = "example.com" ∧
    addNonDefaultPort (deriveProtocol "8080") "example.com" "8080" =
      "example.com" ++ ":" ++ "8080" := by
  refine ⟨(claim_C1_url_derivation.1 "8443").1.mpr (by decide), ?_, ?_⟩
  · exact (claim_C1_url_derivation.2.1 "" "example.com" "93.184.216.34").2.1
      (by decide) (by decide)
  · rw [claim_C1_url_derivation.2.2.1 "example.com" "8080"]
    rw [if_pos (by refine ⟨?_, by decide⟩; decide)]

/-- Counterexample to claim C4: one flow direction carrying a request
followed by response-shaped bytes yields two messages parsed under
different roles — the request/response classification is re-decided at
the second message boundary, not fixed by the first bytes of the
direction. -/
theorem claim_C4_counterexample :
    (run ⟨"51218", "80", "10.0.0.2", ""⟩ (fun _ => false)
      ("GET / HTTP/1.1\r\nHost: a\r\n\r\n" ++
       "HTTP/1.1 200 OK\r\nContent-Length: 0\r\n\r\n").data).map
      HTTPMsg.isReq = [true, false] := by decide

/-- Claim C4 (amended): the Opaque (TLS-prefix) decision is taken from
the direction's first bytes and is permanent — no message is ever
emitted; but the request/response role is chosen afresh at every message
boundary by peeking the bytes at that position, so one direction's
messages may alternate roles. -/
theorem claim_C4_amended :
    (∀ (ctx : FlowCtx) (retryReq : Nat → Bool) (s : List Char),
      tlsRecordStart s = true → run ctx retryReq s = []) ∧
    (∀ (ctx : FlowCtx) (retryReq : Nat → Bool) (fuel : Nat) (s : List Char)
        (req : ParsedReq) (r : List Char),
      8 ≤ s.length → tlsRecordStart s = false →
      listStartsWith "HTTP/".data s = false → readRequest s = .ok (req, r) →
      runLoop ctx retryReq (fuel + 1) s =
        HTTPMsg.request (mkReqMsg ctx req) :: runLoop ctx retryReq fuel r) ∧
    (∀ (ctx : FlowCtx) (retryReq : Nat → Bool) (fuel : Nat) (s : List Char)
        (resp : ParsedResp) (r : List Char),
      8 ≤ s.length → tlsRecordStart s = false →
      listStartsWith "HTTP/".data s = true → readResponseMsg s = .ok (resp, r) →
      runLoop ctx retryReq (fuel + 1) s =
        HTTPMsg.response (mkRespMsg resp) :: runLoop ctx retryReq fuel r) := by
  refine ⟨fun ctx retryReq s h => run_tls_empty ctx retryReq s h, ?_, ?_⟩
  · intro ctx retryReq fuel s req r h8 htls hpre hparse
    have h8' : ¬s.length < 8 := by omega
    rw [runLoop_succ]
    simp [h8', htls, hpre, hparse]
  · intro ctx retryReq fuel s resp r h8 htls hpre hparse
    have h8' : ¬s.length < 8 := by omega
    rw [runLoop_succ]
    simp [h8', htls, hpre, hparse]

/-- Witness for C4 (amended) at concrete streams: the TLS-prefixed
stream stays silent, a request-shaped stream's first message is a
request, a response-shaped stream's first message is a response. -/
theorem claim_C4_amended_witness :
    run ⟨"51218", "80", "10.0.0.2", ""⟩ (fun _ => false)
      [Char.ofNat 0x16, Char.ofNat 0x03, Char.ofNat 0x01, Char.ofNat 0x02] = [] ∧
    runLoop ⟨"51218", "80", "10.0.0.2", ""⟩ (fun _ => false) 7
        "GET / HTTP/1.1\r\nHost: a\r\n\r\n".data =
      HTTPMsg.request (mkReqMsg ⟨"51218", "80", "10.0.0.2", ""⟩
        ⟨"GET".data, "/".data, [], "HTTP/1.1".data, "a".data,
         [("Host".data, "a".data)], []⟩) ::
        runLoop ⟨"51218", "80", "10.0.0.2", ""⟩ (fun _ => false) 6 [] ∧
    runLoop ⟨"80", "51218", "10.0.0.2", ""⟩ (fun _ => false) 7
        "HTTP/1.1 204 No Content\r\n\r\n".data =
      HTTPMsg.response (mkRespMsg
        ⟨"204 No Content".data, "HTTP/1.1".data, 204, [], []⟩) ::
        runLoop ⟨"80", "51218", "10.0.0.2", ""⟩ (fun _ => false) 6 [] := by
  refine ⟨claim_C4_amended.1 _ _ _ (by decide),
    claim_C4_amended.2.1 _ _ 6 _ _ _ (by decide) (by decide) (by decide) rfl,
    claim_C4_amended.2.2 _ _ 6 _ _ _ (by decide) (by decide) (by decide) rfl⟩

/-- Counterexample to claim C5: a response with no Content-Length header
is _not_ given an absent body — Go's ReadResponse reads it to the end of
the stream, so the bytes after the header block are attributed to the
body. -/
theorem claim_C5_counterexample :
    run ⟨"80", "51219", "10.0.0.3", ""⟩ (fun _ => false)
        "HTTP/1.1 200 OK\r\n\r\nhello".data =
      [HTTPMsg.response ⟨"200 OK".data, "HTTP/1.1".data, 200, [], "hello".data⟩] := by
  decide

/-- Claim C5 (amended): a request with no length indicator (no
Content-Length, no Transfer-Encoding) gets a zero-length body and the
stream position does not advance; a response with no length indicator
(and a status that allows a body) instead takes the whole remaining
stream as its body. -/
theorem claim_C5_amended :
    (∀ (headers : List (List Char × List Char)) (s : List Char),
      trimWS (headerGet headers "Content-Length".data) = [] →
      trimWS (headerGet headers "Transfer-Encoding".data) = [] →
      requestBody headers s = some ([], s)) ∧
    (∀ (code : Nat) (headers : List (List Char × List Char)) (s : List Char),
      trimWS (headerGet headers "Content-Length".data) = [] →
      trimWS (headerGet headers "Transfer-Encoding".data) = [] →
      bodyAllowed code = true →
      responseBody code headers s = some (s, [])) := by
  constructor
  · intro headers s hcl hte
    simp only [requestBody]
    rw [hte, hcl]
    rfl
  · intro code headers s hcl hte hba
    simp only [responseBody]
    rw [hba, hte, hcl]
    rfl

/-- Witness for C5 (amended) at concrete headers and streams. -/
theorem claim_C5_amended_witness :
    requestBody [("Host".data, "a".data)] "leftover".data =
      some ([], "leftover".data) ∧
    responseBody 200 [("Server".data, "x".data)] "hello".data =
      some ("hello".data, []) := by
  exact ⟨claim_C5_amended.1 [("Host".data, "a".data)] "leftover".data rfl rfl,
    claim_C5_amended.2 200 [("Server".data, "x".data)] "hello".data rfl rfl rfl⟩

/-- Counterexample to claim C8: after the unrecoverable parse error on
the malformed status line "HTTP/1.1 ZZZ", the direction is _not_
abandoned — the response branch retries past the consumed line and
resynchronizes, emitting the request that follows. -/
theorem claim_C8_counterexample :
    run ⟨"80", "51220", "10.0.0.4", ""⟩ (fun _ => false)
      ("HTTP/1.1 ZZZ\r\n" ++ "GET /x HTTP/1.1\r\nHost: a\r\n\r\n").data =
      [HTTPMsg.request ⟨"GET".data, "http://a:51220/x", "HTTP/1.1".data, "a".data,
        [("Host".data, "a".data)], []⟩] := by
  decide

/-- Claim C8 (amended): on an unrecoverable mid-message parse error the
parser never re-examines the bytes the failed read consumed; whether the
direction continues depends on the branch and on buffer occupancy.  The
request branch consults the retry test: when it is false the direction
is abandoned (nothing further is emitted), when it is true the loop
continues from the consumed position — and can resynchronize; the
response branch always continues from the consumed position and can
resynchronize.  Abandonment after a mid-message error is therefore not
guaranteed in either branch. -/
theorem claim_C8_amended :
    (∀ (ctx : FlowCtx) (retryReq : Nat → Bool) (fuel : Nat) (s r : List Char),
      readRequest s = .error r → 8 ≤ s.length →
      tlsRecordStart s = false → listStartsWith "HTTP/".data s = false →
      retryReq fuel = false →
      runLoop ctx retryReq (fuel + 1) s = []) ∧
    (∀ (ctx : FlowCtx) (retryReq : Nat → Bool) (fuel : Nat) (s r : List Char),
      readRequest s = .error r → 8 ≤ s.length →
      tlsRecordStart s = false → listStartsWith "HTTP/".data s = false →
      retryReq fuel = true → r.length < s.length →
      runLoop ctx retryReq (fuel + 1) s = runLoop ctx retryReq fuel r) ∧
    (∀ (ctx : FlowCtx) (retryReq : Nat → Bool) (fuel : Nat) (s r : List Char),
      readResponseMsg s = .error r → 8 ≤ s.length →
      tlsRecordStart s = false → listStartsWith "HTTP/".data s = true →
      r.length < s.length →
      runLoop ctx retryReq (fuel + 1) s = runLoop ctx retryReq fuel r) := by
  refine ⟨?_, ?_, ?_⟩
  · intro ctx retryReq fuel s r herr h8 htls hpre hretry
    have h8' : ¬s.length < 8 := by omega
    rw [runLoop_succ]
    simp [h8', htls, hpre, herr, hretry]
  · intro ctx retryReq fuel s r herr h8 htls hpre hretry hlt
    have h8' : ¬s.length < 8 := by omega
    rw [runLoop_succ]
    simp [h8', htls, hpre, herr, hretry, hlt]
  · intro ctx retryReq fuel s r herr h8 htls hpre hlt
    have h8' : ¬s.length < 8 := by omega
    rw [runLoop_succ]
    simp [h8', htls, hpre, herr, hlt]

/-- Witness for C8 (amended) at the malformed-request-line stream: with
the retry test false the direction is abandoned; with it true the loop
resumes exactly at the following request; and a failed response read
resumes exactly at the request after the malformed status line. -/
theorem claim_C8_amended_witness :
    runLoop ⟨"80", "51220", "10.0.0.4", ""⟩ (fun _ => false) 40
        ("XYZ\r\n" ++ "GET /x HTTP/1.1\r\nHost: a\r\n\r\n").data = [] ∧
    runLoop ⟨"80", "51220", "10.0.0.4", ""⟩ (fun _ => true) 40
        ("XYZ\r\n" ++ "GET /x HTTP/1.1\r\nHost: a\r\n\r\n").data =
      runLoop ⟨"80", "51220", "10.0.0.4", ""⟩ (fun _ => true) 39
        "GET /x HTTP/1.1\r\nHost: a\r\n\r\n".data ∧
    runLoop ⟨"80", "51220", "10.0.0.4", ""⟩ (fun _ => false) 42
        ("HTTP/1.1 ZZZ\r\n" ++ "GET /x HTTP/1.1\r\nHost: a\r\n\r\n").data =
      runLoop ⟨"80", "51220", "10.0.0.4", ""⟩ (fun _ => false) 41
        "GET /x HTTP/1.1\r\nHost: a\r\n\r\n".data := by
  refine ⟨claim_C8_amended.1 _ _ 39 _ "GET /x HTTP/1.1\r\nHost: a\r\n\r\n".data
      rfl (by decide) (by decide) (by decide) rfl,
    claim_C8_amended.2.1 _ _ 39 _ _ rfl (by decide) (by decide) (by decide) rfl
      (by decide),
    claim_C8_amended.2.2 _ _ 41 _ _ rfl (by decide) (by decide) (by decide)
      (by decide)⟩

/-- Claim C9's failing input evaluated: gopacket renders port 22 as
"22(ssh)", which matches no case of `isHTTPPort`'s switch (whose
"definitely not HTTP" case compares against the bare "22"), so a segment
between two such ports falls to the permissive default and _is_
submitted to reassembly. -/
theorem claim_C9_filter_never_matches :
    tcpPortString 22 = "22(ssh)" ∧
    isHTTPPort "22" = false ∧
    isHTTPPort (tcpPortString 22) = true ∧
    segmentSubmitted 22 22 = true := by decide

end PcapAnalyzer
